import Mathlib

/-!
Shallow embedding of the `howto` CLI tool (src/main.rs).

The program has three non-trivial pieces, each embedded below from the
source, not from the spec:

* the response extractor: the substring search for the first `<command>`
  and first `</command>` occurrence and the slice between them
  (`generate_command`, lines 99-106);
* the prompt builder: the fixed request constants and the two messages
  (`generate_command`, lines 60-81);
* the credential resolver: `get_api_key` / `get_data_dir`
  (lines 115-153).

Strings handled by the extractor are modelled as `List Char`; Rust's
`str::find` returns the byte index of the first occurrence, and since both
search patterns are pure ASCII, byte positions of occurrences and char
positions are related by a strictly monotone map that is an offset-preserving
bijection on the boundaries involved, so char indices are a faithful model.
Rust's slice expression `content[start..end]` panics when `start > end`;
that outcome is modelled explicitly by the `panicked` constructor rather
than hidden, because nothing in the source prevents it.

Environment access (`std::env::var`), the home directory lookup and the
file read are effects; they are modelled by passing the observed values
explicitly: a `VarResult` mirrors `Result<String, VarError>`, the home
directory is an `Option String`, and the filesystem is a function
`String → Option String` from path to file contents. Quantifying over the
filesystem function expresses "does not touch the filesystem".
-/

namespace HowTo

/-- Rust `char::is_whitespace`: the Unicode White_Space property
(U+0009..U+000D, U+0020, U+0085, U+00A0, U+1680, U+2000..U+200A,
U+2028, U+2029, U+202F, U+205F, U+3000). -/
def rustIsWhitespace (c : Char) : Bool :=
  let n := c.toNat
  (0x09 ≤ n && n ≤ 0x0D) || n == 0x20 || n == 0x85 || n == 0xA0 ||
  n == 0x1680 || (0x2000 ≤ n && n ≤ 0x200A) || n == 0x2028 ||
  n == 0x2029 || n == 0x202F || n == 0x205F || n == 0x3000

/-- Rust `str::trim`: remove leading and trailing whitespace characters. -/
def trimChars (l : List Char) : List Char :=
  ((l.dropWhile rustIsWhitespace).reverse.dropWhile rustIsWhitespace).reverse

/-- `str::trim` on a whole string, then `.to_string()`. -/
def rustTrim (s : String) : String :=
  String.mk (trimChars s.toList)

/-- `pat` occurs in `l` starting at position `i`. -/
def occursAt (pat l : List Char) (i : Nat) : Bool :=
  pat.isPrefixOf (l.drop i)

/-- `i` is the position of the first occurrence of `pat` in `l`. -/
def isFirstOccurAt (pat l : List Char) (i : Nat) : Prop :=
  occursAt pat l i = true ∧ ∀ j < i, occursAt pat l j = false

instance (pat l : List Char) (i : Nat) : Decidable (isFirstOccurAt pat l i) :=
  inferInstanceAs (Decidable (_ ∧ _))

/-- Rust `str::find` for a literal pattern: the index of the first
occurrence of `pat` in `l`, if any. -/
def findSub (pat : List Char) : List Char → Option Nat
  | [] => if pat.isEmpty then some 0 else none
  | a :: t => if pat.isPrefixOf (a :: t) then some 0 else (findSub pat t).map (· + 1)

/-- The opening tag searched for by `generate_command`. -/
def openTag : String := "<command>"

/-- The closing tag searched for by `generate_command`. -/
def closeTag : String := "</command>"

/-- Outcome of the tag-extraction step of `generate_command`
(src/main.rs lines 99-106). -/
inductive ExtractResult
  | ok (command : List Char)
  | noCommand
  | panicked
deriving DecidableEq, Repr

/-- The extraction step of `generate_command` (src/main.rs lines 99-106):

```
let start_index = content.find("<command>").map(|i| i + "<command>".len());
let end_index = content.find("</command>");
if let (Some(start), Some(end)) = (start_index, end_index) {
    Ok(content[start..end].trim().to_string())
} else {
    anyhow::bail!("No command could be generated for the action.")
}
```

`content[start..end]` panics when `start > end`; both indices are char
boundaries (ends of ASCII tag occurrences), so that is the only panic
condition, modelled by `panicked`. -/
def extractCommand (content : List Char) : ExtractResult :=
  match findSub openTag.toList content, findSub closeTag.toList content with
  | some i, some e =>
    let start := i + openTag.length
    if start ≤ e then
      ExtractResult.ok (trimChars ((content.drop start).take (e - start)))
    else
      ExtractResult.panicked
  | _, _ => ExtractResult.noCommand

/-- `choice.message.content.unwrap_or_default()` (src/main.rs line 94):
a missing content field is treated as the empty string. -/
def modelReplyText (content : Option String) : String :=
  content.getD ""

/-- Role tag of a chat message (system vs user message constructors of
the request payload). -/
inductive Role
  | system
  | user
deriving DecidableEq, Repr

/-- One role-tagged message of the request payload. -/
structure ChatMessage where
  role : Role
  content : String
deriving DecidableEq, Repr

/-- The request payload assembled by `generate_command` (src/main.rs
lines 75-81): model id, max_tokens, temperature and the ordered messages.
The temperature is the literal `0.0`; no floating-point arithmetic is ever
performed on it, so it is modelled as a rational constant. -/
structure ChatRequest where
  model : String
  maxTokens : Nat
  temperature : ℚ
  messages : List ChatMessage
deriving DecidableEq

/-- The `SYSTEM_MESSAGE` raw string constant (src/main.rs lines 41-58),
including its leading and trailing newline. -/
def SYSTEM_MESSAGE : String :=
  "\nYou are an expert Unix system operator. You have intimate and detailed knowledge of CLI tools, both old and new.\n\nWhen the user asks for a command that accomplishes a high-level action, you respond with a CLI command that accomplishes that action.\n\nExample input:\n<action>\ngo to my home directory\n</action>\n\nExample output:\n<command>\ncd ~\n</command>\n\nIf the action cannot be accomplished via the CLI, you must respond with:\n<no_command/>\n"

/-- The request construction of `generate_command` (src/main.rs lines
60-81): a system message carrying `SYSTEM_MESSAGE`, a user message
carrying the trimmed action wrapped in action tags, and the fixed
constants passed to the request builder. -/
def buildRequest (action : String) : ChatRequest :=
  { model := "gpt-4o-2024-08-06"
    maxTokens := 1024
    temperature := 0
    messages :=
      [ { role := Role.system, content := SYSTEM_MESSAGE },
        { role := Role.user,
          content := "<action>\n" ++ rustTrim action ++ "\n</action>" } ] }

/-- `choice.message` of one candidate: its optional textual content. -/
structure ResponseMessage where
  content : Option String
deriving DecidableEq, Repr

/-- One candidate of the provider response (`response.choices` element). -/
structure ChatChoice where
  message : ResponseMessage
deriving DecidableEq, Repr

/-- Result of one run of `generate_command`: the extracted command, an
error whose displayed message is recorded (`anyhow` shows the outermost
context message via `Error: {err}`), or a panic. -/
inductive GenResult
  | ok (command : String)
  | err (message : String)
  | panicked
deriving DecidableEq, Repr

/-- Context message attached when the provider call fails
(src/main.rs line 87). -/
def REQUEST_FAILED_MSG : String :=
  "Unable to generate command. OpenAI request failed."

/-- Context message attached when `response.choices.pop()` finds no
candidate (src/main.rs line 92). -/
def NO_RESPONSE_MSG : String :=
  "Unable to generate command. No response from model."

/-- The `anyhow::bail!` message of the no-command path
(src/main.rs line 105). -/
def NO_COMMAND_MSG : String :=
  "No command could be generated for the action."

/-- `generate_command` (src/main.rs lines 60-107) with the one network
call abstracted as `respond : ChatRequest → Except String (List ChatChoice)`
(error = failed call, ok = the `choices` list of the response).
`response.choices.pop()` removes and returns the LAST element of the
vector, hence `getLast?`. -/
def generate_command (action : String)
    (respond : ChatRequest → Except String (List ChatChoice)) : GenResult :=
  match respond (buildRequest action) with
  | Except.error _ => GenResult.err REQUEST_FAILED_MSG
  | Except.ok choices =>
    match choices.getLast? with
    | none => GenResult.err NO_RESPONSE_MSG
    | some choice =>
      let content := modelReplyText choice.message.content
      match extractCommand content.toList with
      | ExtractResult.ok cmd => GenResult.ok (String.mk cmd)
      | ExtractResult.noCommand => GenResult.err NO_COMMAND_MSG
      | ExtractResult.panicked => GenResult.panicked

/-- `std::env::var` outcome: `Ok(value)`, `Err(VarError::NotPresent)` or
`Err(VarError::NotUnicode(_))`. -/
inductive VarResult
  | ok (value : String)
  | notPresent
  | notUnicode
deriving DecidableEq, Repr

/-- `DATA_DIR_ENV_VAR` constant (src/main.rs line 115). -/
def DATA_DIR_ENV_VAR : String := "HOWTO_CLI_DATA_DIR"

/-- `OPENAI_API_KEY_ENV_VAR` constant (src/main.rs line 116). -/
def OPENAI_API_KEY_ENV_VAR : String := "HOWTO_CLI_OPENAI_API_KEY"

/-- `DEFAULT_DATA_DIR_NAME` constant (src/main.rs line 117). -/
def DEFAULT_DATA_DIR_NAME : String := ".howto-cli"

/-- `OPENAI_API_KEY_FILE` constant (src/main.rs line 118). -/
def OPENAI_API_KEY_FILE : String := "credentials"

/-- `PathBuf::join` with a relative file name: push a separator if the
directory is non-empty and lacks a trailing one, then the name. -/
def pathJoin (dir file : String) : String :=
  if dir = "" then file
  else if dir.toList.getLast? = some '/' then dir ++ file
  else dir ++ "/" ++ file

/-- The `format!`-built message of the `VarError::NotUnicode` arms
(src/main.rs lines 131-134 and 148-151). -/
def notUnicodeMsg (var : String) : String :=
  "The value of the " ++ var ++ " environment variable is not valid Unicode."

/-- The context message of the missing-home-directory failure
(src/main.rs lines 142-145). -/
def noHomeDirMsg : String :=
  "Unable to determine home directory. Set the " ++ DATA_DIR_ENV_VAR ++
  " environment variable to override."

/-- The context message of the credentials-file read failure
(src/main.rs line 128). -/
def READ_KEY_FILE_MSG : String :=
  "Unable to read OpenAI API key from file"

/-- `get_data_dir` (src/main.rs lines 138-153). `homeDir` is the observed
result of `dirs::home_dir()`. -/
def get_data_dir (dataDirVar : VarResult) (homeDir : Option String) :
    Except String String :=
  match dataDirVar with
  | VarResult.ok dataDir => Except.ok dataDir
  | VarResult.notPresent =>
    match homeDir with
    | some home => Except.ok (pathJoin home DEFAULT_DATA_DIR_NAME)
    | none => Except.error noHomeDirMsg
  | VarResult.notUnicode => Except.error (notUnicodeMsg DATA_DIR_ENV_VAR)

/-- `get_api_key` (src/main.rs lines 120-136). `readFile` is the observed
filesystem: path to contents, `none` meaning the read fails. -/
def get_api_key (apiKeyVar dataDirVar : VarResult) (homeDir : Option String)
    (readFile : String → Option String) : Except String String :=
  match apiKeyVar with
  | VarResult.ok apiKey => Except.ok apiKey
  | VarResult.notPresent =>
    match get_data_dir dataDirVar homeDir with
    | Except.ok dataDir =>
      match readFile (pathJoin dataDir OPENAI_API_KEY_FILE) with
      | some contents => Except.ok (rustTrim contents)
      | none => Except.error READ_KEY_FILE_MSG
    | Except.error e => Except.error e
  | VarResult.notUnicode => Except.error (notUnicodeMsg OPENAI_API_KEY_ENV_VAR)

/-! ## Helper lemmas about `findSub`, `dropWhile` and `trimChars` -/

theorem isFirstOccurAt_iff (pat l : List Char) (i : Nat) :
    isFirstOccurAt pat l i ↔
      occursAt pat l i = true ∧ ∀ j < i, occursAt pat l j = false :=
  Iff.rfl

theorem occursAt_cons_succ (pat : List Char) (a : Char) (t : List Char) (i : Nat) :
    occursAt pat (a :: t) (i + 1) = occursAt pat t i := by
  simp [occursAt, List.drop_succ_cons]

/-- `findSub` returns exactly the index of the first occurrence. -/
theorem findSub_eq_some_iff (pat l : List Char) (i : Nat) :
    findSub pat l = some i ↔ isFirstOccurAt pat l i := by
  induction l generalizing i with
  | nil =>
    rw [isFirstOccurAt_iff]
    constructor
    · intro h
      unfold findSub at h
      split at h
      · next hp =>
        cases h
        have hpat : pat = [] := by simpa using hp
        refine ⟨by simp [occursAt, hpat, List.isPrefixOf], by omega⟩
      · cases h
    · rintro ⟨h1, h2⟩
      have hpat : pat = [] := by
        have hpre : pat.isPrefixOf ([] : List Char) = true := by
          simpa [occursAt] using h1
        cases pat with
        | nil => rfl
        | cons c p => simp [List.isPrefixOf] at hpre
      have hi : i = 0 := by
        by_contra hne
        have h0 := h2 0 (Nat.pos_of_ne_zero hne)
        simp [occursAt, hpat, List.isPrefixOf] at h0
      subst hi
      simp [findSub, hpat]
  | cons a t ih =>
    rw [isFirstOccurAt_iff]
    by_cases hp : pat.isPrefixOf (a :: t)
    · constructor
      · intro h
        unfold findSub at h
        rw [if_pos hp] at h
        cases h
        exact ⟨by simpa [occursAt] using hp, by omega⟩
      · rintro ⟨h1, h2⟩
        have hi : i = 0 := by
          by_contra hne
          have h0 := h2 0 (Nat.pos_of_ne_zero hne)
          simp [occursAt] at h0
          simp [h0] at hp
        subst hi
        unfold findSub
        rw [if_pos hp]
    · have hpf : pat.isPrefixOf (a :: t) = false := by
        cases hb : pat.isPrefixOf (a :: t)
        · rfl
        · exact absurd hb hp
      constructor
      · intro h
        unfold findSub at h
        rw [if_neg hp] at h
        rcases Option.map_eq_some'.mp h with ⟨j, hj, hij⟩
        rcases (isFirstOccurAt_iff pat t j).mp ((ih j).mp hj) with ⟨hj1, hj2⟩
        subst hij
        constructor
        · rw [occursAt_cons_succ]
          exact hj1
        · intro k hk
          match k with
          | 0 => simpa [occursAt] using hpf
          | m + 1 =>
            rw [occursAt_cons_succ]
            exact hj2 m (by omega)
      · rintro ⟨h1, h2⟩
        obtain ⟨j, rfl⟩ : ∃ j, i = j + 1 := by
          cases i with
          | zero =>
            rw [show occursAt pat (a :: t) 0 = pat.isPrefixOf (a :: t) from rfl, hpf] at h1
            cases h1
          | succ j => exact ⟨j, rfl⟩
        have hjt : isFirstOccurAt pat t j := by
          rw [isFirstOccurAt_iff]
          constructor
          · rw [← occursAt_cons_succ pat a]
            exact h1
          · intro m hm
            rw [← occursAt_cons_succ pat a]
            exact h2 (m + 1) (by omega)
        have hfind := (ih j).mpr hjt
        unfold findSub
        rw [if_neg hp, hfind]
        rfl

/-- `findSub` fails exactly when the pattern occurs nowhere. -/
theorem findSub_eq_none_iff (pat l : List Char) :
    findSub pat l = none ↔ ∀ i, occursAt pat l i = false := by
  constructor
  · intro h i
    by_contra hc
    have hocc : occursAt pat l i = true := by simpa using hc
    have hex : ∃ j, occursAt pat l j = true := ⟨i, hocc⟩
    have hfirst : isFirstOccurAt pat l (Nat.find hex) := by
      rw [isFirstOccurAt_iff]
      refine ⟨Nat.find_spec hex, fun j hj => ?_⟩
      have := Nat.find_min hex hj
      simpa using this
    have := (findSub_eq_some_iff pat l (Nat.find hex)).mpr hfirst
    rw [h] at this
    cases this
  · intro h
    cases hf : findSub pat l with
    | none => rfl
    | some j =>
      have hfirst := (findSub_eq_some_iff pat l j).mp hf
      rw [isFirstOccurAt_iff] at hfirst
      rw [h j] at hfirst
      cases hfirst.1


/-- The head of a `dropWhile` result never satisfies the dropped predicate. -/
theorem head?_dropWhile_not (p : Char → Bool) (l : List Char) (a : Char)
    (h : (l.dropWhile p).head? = some a) : p a = false := by
  induction l with
  | nil => simp [List.dropWhile] at h
  | cons b t ih =>
    rw [List.dropWhile_cons] at h
    split at h
    · exact ih h
    · next hb =>
      have hab : b = a := by simpa using h
      subst hab
      cases hpb : p b
      · rfl
      · exact absurd hpb hb

/-- `dropWhile` only removes a prefix, so a non-empty result keeps the
last element. -/
theorem getLast?_dropWhile (p : Char → Bool) (l : List Char)
    (h : l.dropWhile p ≠ []) : (l.dropWhile p).getLast? = l.getLast? := by
  induction l with
  | nil => simp [List.dropWhile] at h
  | cons b t ih =>
    by_cases hb : p b
    · rw [List.dropWhile_cons, if_pos hb] at h ⊢
      have ht : t ≠ [] := by
        intro he
        subst he
        simp [List.dropWhile] at h
      obtain ⟨c, t', rfl⟩ := List.exists_cons_of_ne_nil ht
      rw [ih h, List.getLast?_cons_cons]
    · rw [List.dropWhile_cons, if_neg hb]

/-- A list whose head does not satisfy `p` is untouched by `dropWhile p`. -/
theorem dropWhile_eq_self_of_head (p : Char → Bool) (l : List Char)
    (h : ∀ c, l.head? = some c → p c = false) : l.dropWhile p = l := by
  cases l with
  | nil => rfl
  | cons b t =>
    rw [List.dropWhile_cons, if_neg]
    intro hb
    have := h b rfl
    rw [hb] at this
    cases this

/-- The first character of a trimmed list is never whitespace. -/
theorem trimChars_head (l : List Char) (c : Char)
    (h : (trimChars l).head? = some c) : rustIsWhitespace c = false := by
  unfold trimChars at h
  rw [List.head?_reverse] at h
  have hne : (List.dropWhile rustIsWhitespace
      ((l.dropWhile rustIsWhitespace).reverse)) ≠ [] := by
    intro he
    rw [he] at h
    cases h
  rw [getLast?_dropWhile _ _ hne, List.getLast?_reverse] at h
  exact head?_dropWhile_not _ _ _ h

/-- The last character of a trimmed list is never whitespace. -/
theorem trimChars_getLast (l : List Char) (c : Char)
    (h : (trimChars l).getLast? = some c) : rustIsWhitespace c = false := by
  unfold trimChars at h
  rw [List.getLast?_reverse] at h
  exact head?_dropWhile_not _ _ _ h

/-- Trimming is idempotent. -/
theorem trimChars_idem (l : List Char) :
    trimChars (trimChars l) = trimChars l := by
  have d1 : (trimChars l).dropWhile rustIsWhitespace = trimChars l :=
    dropWhile_eq_self_of_head _ _ (trimChars_head l)
  have d2 : (trimChars l).reverse.dropWhile rustIsWhitespace =
      (trimChars l).reverse := by
    apply dropWhile_eq_self_of_head
    intro c hc
    rw [List.head?_reverse] at hc
    exact trimChars_getLast l c hc
  show (((trimChars l).dropWhile rustIsWhitespace).reverse.dropWhile
      rustIsWhitespace).reverse = trimChars l
  rw [d1, d2, List.reverse_reverse]

/-! ## Claim theorems -/

/-- C1: the claim says that on a reply whose first `</command>` precedes
the end of its first `<command>` the extraction returns the no-command
failure and never panics. The code violates this: on the reply
`</command><command>` the slice `content[start..end]` is taken with
`start = 19 > end = 0`, which panics in Rust; the embedding records this
as the `panicked` outcome. -/
theorem extract_panics_on_early_close :
    extractCommand ("</command><command>".toList) = ExtractResult.panicked := by
  decide

/-- C2: when both tags occur and the end of the first `<command>`
occurrence is at or before the start of the first `</command>` occurrence,
extraction succeeds and returns exactly the text strictly between those
two positions, whitespace-trimmed; only the first occurrence of each tag
is honoured, so the content may span into a later block. -/
theorem extract_between_first_tags (l : List Char) (s e : Nat)
    (hs : isFirstOccurAt openTag.toList l s)
    (he : isFirstOccurAt closeTag.toList l e)
    (hle : s + openTag.length ≤ e) :
    extractCommand l =
      ExtractResult.ok
        (trimChars ((l.drop (s + openTag.length)).take (e - (s + openTag.length)))) := by
  have hfs := (findSub_eq_some_iff openTag.toList l s).mpr hs
  have hfe := (findSub_eq_some_iff closeTag.toList l e).mpr he
  unfold extractCommand
  rw [hfs, hfe]
  simp [hle]

/-- Witness for C2: a reply with two opening blocks; the extracted text
spans from the first opening tag into the second block. -/
theorem extract_between_first_tags_witness :
    extractCommand ("<command>x<command>y</command>".toList) =
      ExtractResult.ok ("x<command>y".toList) := by
  have h := extract_between_first_tags ("<command>x<command>y</command>".toList)
    0 20 (by decide) (by decide) (by decide)
  exact h.trans (by decide)

/-- C3 counterexample: the claim says a successful extraction always
returns a non-empty command, but on the reply `<command></command>`
extraction succeeds with the empty string. -/
theorem extract_ok_empty :
    extractCommand ("<command></command>".toList) = ExtractResult.ok [] := by
  decide

/-- C3 (amended): whenever extraction succeeds, the returned command
string is already trimmed (no leading or trailing whitespace) — but it
may be empty. -/
theorem extract_ok_trimmed (l cmd : List Char)
    (h : extractCommand l = ExtractResult.ok cmd) :
    trimChars cmd = cmd := by
  unfold extractCommand at h
  split at h
  · dsimp only at h
    split at h
    · injection h with h'
      rw [← h']
      exact trimChars_idem _
    · exact ExtractResult.noConfusion h
  · exact ExtractResult.noConfusion h

/-- Witness for C3 (amended): the command extracted from
`<command> ls </command>` is `ls`, and trimming leaves it unchanged. -/
theorem extract_ok_trimmed_witness :
    trimChars ("ls".toList) = "ls".toList :=
  extract_ok_trimmed ("<command> ls </command>".toList) ("ls".toList) (by decide)

/-- C4: credential resolution order. If the API-key environment variable
is set to valid Unicode text, its value is returned exactly as-is, for
every filesystem (so without touching it). If it is unset, the resolver
reads the file `credentials` inside the resolved data directory and
returns its contents with surrounding whitespace trimmed. -/
theorem get_api_key_resolution_order :
    (∀ (k : String) (dataDirVar : VarResult) (homeDir : Option String)
        (readFile : String → Option String),
      get_api_key (VarResult.ok k) dataDirVar homeDir readFile = Except.ok k) ∧
    (∀ (dataDirVar : VarResult) (homeDir : Option String)
        (readFile : String → Option String) (dir contents : String),
      get_data_dir dataDirVar homeDir = Except.ok dir →
      readFile (pathJoin dir OPENAI_API_KEY_FILE) = some contents →
      get_api_key VarResult.notPresent dataDirVar homeDir readFile =
        Except.ok (rustTrim contents)) := by
  constructor
  · intro k _ _ _
    rfl
  · intro dataDirVar homeDir readFile dir contents h1 h2
    unfold get_api_key
    rw [h1]
    dsimp only
    rw [h2]

/-- Witness for C4: the env value `" sk-test "` is returned untrimmed
with an empty filesystem; with the variable unset and a data dir of
`/tmp/howto` whose credentials file holds `"  sk-file \n"`, resolution
returns `"sk-file"`. -/
theorem get_api_key_resolution_order_witness :
    get_api_key (VarResult.ok " sk-test ") VarResult.notPresent none
      (fun _ => none) = Except.ok " sk-test " ∧
    get_api_key VarResult.notPresent (VarResult.ok "/tmp/howto") none
      (fun p => if p = "/tmp/howto/credentials" then some "  sk-file \n" else none) =
      Except.ok "sk-file" := by
  constructor
  · exact get_api_key_resolution_order.1 " sk-test " VarResult.notPresent none
      (fun _ => none)
  · have h := get_api_key_resolution_order.2 (VarResult.ok "/tmp/howto") none
      (fun p => if p = "/tmp/howto/credentials" then some "  sk-file \n" else none)
      "/tmp/howto" "  sk-file \n" rfl (by decide)
    exact h.trans (congrArg Except.ok (by decide))

/-- C5: whenever either tag is absent from the reply — including the
reply `<no_command/>` and a missing content field, which is treated as
empty text — extraction ends in the single no-command failure outcome. -/
theorem extract_noCommand_of_missing_tag (content : Option String)
    (h : (∀ i, occursAt openTag.toList (modelReplyText content).toList i = false) ∨
         (∀ i, occursAt closeTag.toList (modelReplyText content).toList i = false)) :
    extractCommand (modelReplyText content).toList = ExtractResult.noCommand := by
  unfold extractCommand
  cases h with
  | inl h =>
    rw [(findSub_eq_none_iff _ _).mpr h]
  | inr h =>
    rw [(findSub_eq_none_iff _ _).mpr h]
    cases hfs : findSub openTag.toList (modelReplyText content).toList <;> rfl

/-- Witness for C5: a missing content field and the literal
`<no_command/>` marker both end in the no-command failure. -/
theorem extract_noCommand_of_missing_tag_witness :
    extractCommand (modelReplyText none).toList = ExtractResult.noCommand ∧
    extractCommand (modelReplyText (some "<no_command/>")).toList =
      ExtractResult.noCommand :=
  ⟨extract_noCommand_of_missing_tag none
      (Or.inl ((findSub_eq_none_iff _ _).mp (by decide))),
    extract_noCommand_of_missing_tag (some "<no_command/>")
      (Or.inl ((findSub_eq_none_iff _ _).mp (by decide)))⟩

/-- C6: when the API-key environment variable is set but not decodable
as Unicode, resolution fails immediately with the message naming that
variable, for every data-dir variable, home directory and filesystem
(so it never falls through to the data directory or the file). -/
theorem get_api_key_not_unicode_fails (dataDirVar : VarResult)
    (homeDir : Option String) (readFile : String → Option String) :
    get_api_key VarResult.notUnicode dataDirVar homeDir readFile =
      Except.error (notUnicodeMsg OPENAI_API_KEY_ENV_VAR) ∧
    OPENAI_API_KEY_ENV_VAR.toList <:+: (notUnicodeMsg OPENAI_API_KEY_ENV_VAR).toList :=
  ⟨rfl, by decide⟩

/-- C7: data-directory resolution. A set Unicode value is used as the
path; otherwise `<home>/.howto-cli`; with no home directory the error
names the data-dir override variable; a non-Unicode value also fails
naming that variable. -/
theorem get_data_dir_resolution :
    (∀ (d : String) (homeDir : Option String),
      get_data_dir (VarResult.ok d) homeDir = Except.ok d) ∧
    (∀ home : String,
      get_data_dir VarResult.notPresent (some home) =
        Except.ok (pathJoin home DEFAULT_DATA_DIR_NAME)) ∧
    (get_data_dir VarResult.notPresent none = Except.error noHomeDirMsg ∧
      DATA_DIR_ENV_VAR.toList <:+: noHomeDirMsg.toList) ∧
    (∀ homeDir : Option String,
      get_data_dir VarResult.notUnicode homeDir =
        Except.error (notUnicodeMsg DATA_DIR_ENV_VAR) ∧
      DATA_DIR_ENV_VAR.toList <:+: (notUnicodeMsg DATA_DIR_ENV_VAR).toList) :=
  ⟨fun _ _ => rfl, fun _ => rfl, ⟨rfl, by decide⟩, fun _ => ⟨rfl, by decide⟩⟩

/-- C8: for every action, the built request has exactly the two fixed
messages — the invocation-independent system instruction, and the user
message wrapping the trimmed action as `<action>\n...\n</action>` — along
with the fixed model identifier, temperature 0 and 1024-token bound;
nothing beyond trimming is applied to the action. -/
theorem buildRequest_fixed_shape (action : String) :
    (buildRequest action).messages.length = 2 ∧
    (buildRequest action).messages =
      [⟨Role.system, SYSTEM_MESSAGE⟩,
       ⟨Role.user, "<action>\n" ++ rustTrim action ++ "\n</action>"⟩] ∧
    (buildRequest action).model = "gpt-4o-2024-08-06" ∧
    (buildRequest action).temperature = 0 ∧
    (buildRequest action).maxTokens = 1024 :=
  ⟨rfl, rfl, rfl, rfl, rfl⟩

/-- C9: only the last candidate of the provider response is used — the
result is unchanged when any earlier candidates are discarded — and an
empty candidate list fails with the provider error, not with extraction. -/
theorem generate_command_last_choice :
    (∀ (action : String) (l : List ChatChoice) (c : ChatChoice),
      generate_command action (fun _ => Except.ok (l ++ [c])) =
        generate_command action (fun _ => Except.ok [c])) ∧
    (∀ action : String,
      generate_command action (fun _ => Except.ok ([] : List ChatChoice)) =
        GenResult.err NO_RESPONSE_MSG) := by
  constructor
  · intro action l c
    simp [generate_command, List.getLast?_concat]
  · intro action
    rfl

/-- C10: an API-key environment variable set to the empty string is a
successful resolution to the empty credential, for every data-dir
variable, home directory and filesystem (no file read, no error). -/
theorem get_api_key_empty_env (dataDirVar : VarResult) (homeDir : Option String)
    (readFile : String → Option String) :
    get_api_key (VarResult.ok "") dataDirVar homeDir readFile = Except.ok "" :=
  rfl

end HowTo
